import Mathlib

/-!
Shallow embedding of the go_proxy repository core: the capture data model
(`internal/capture/request.go`), the bounded history store with live
subscriber fan-out (`internal/capture/store.go`), the HTTP forwarding
handler (`internal/proxy/handler.go`) and the CONNECT tunnel handler
(`internal/proxy/https.go`).  Time values are represented abstractly as
natural numbers, byte strings as lists of naturals, and Go maps of headers
as association lists.
-/

namespace GoProxy

/-- Embedding of `capture.CapturedRequest` (internal/capture/request.go).
Header maps `map[string][]string` are modelled as association lists,
`time.Time` and `time.Duration` as abstract naturals, body byte slices as
lists of naturals. -/
structure CapturedRequest where
  ID : String
  Timestamp : Nat
  Method : String
  URL : String
  Host : String
  Path : String
  Proto : String
  RequestHeaders : List (String × List String)
  RequestBody : List Nat
  StatusCode : Nat
  ResponseHeaders : List (String × List String)
  ResponseBody : List Nat
  Duration : Nat
  IsHTTPS : Bool
  IsTunnel : Bool
  ClientAddr : String
  ProcessName : String
  ProcessID : Nat
  deriving Repr, DecidableEq

/-- Model of a Go buffered channel of `*CapturedRequest` values: a bounded
queue plus a closed flag.  `Subscribe` in store.go creates these with
capacity 100. -/
structure Chan where
  cap : Nat
  buf : List CapturedRequest
  closed : Bool
  deriving Repr, DecidableEq

/-- Embedding of `capture.Store` (internal/capture/store.go).  The Go
subscriber set `map[chan *CapturedRequest]struct\x7b\x7d` is modelled by giving
every channel created by `Subscribe` a numeric handle: `channels` records
every channel the store ever created (so a closed channel can still be
named, as a Go channel value can), and `subscribers` is the set of handles
currently registered. -/
structure Store where
  requests : List CapturedRequest
  maxSize : Nat
  channels : List (Nat × Chan)
  subscribers : List Nat
  nextHandle : Nat
  deriving Repr, DecidableEq

/-- Embedding of `capture.NewStore`: a non-positive size argument falls back
to the default capacity 1000. -/
def newStore (maxSize : Int) : Store :=
  let m : Nat := if maxSize ≤ 0 then 1000 else maxSize.toNat
  { requests := [], maxSize := m, channels := [], subscribers := [], nextHandle := 0 }

/-- Model of the non-blocking send in `notifySubscribers`: the
`select`/`default` statement enqueues when the buffer has room and
otherwise drops the record. -/
def chanTrySend (c : Chan) (r : CapturedRequest) : Chan :=
  if c.buf.length < c.cap then { c with buf := c.buf ++ [r] } else c

/-- Embedding of `Store.notifySubscribers`: every currently registered
subscriber channel receives a non-blocking send of the record. -/
def Store.notifySubscribers (s : Store) (r : CapturedRequest) : Store :=
  { s with channels :=
      s.channels.map (fun p => (p.1, if p.1 ∈ s.subscribers then chanTrySend p.2 r else p.2)) }

/-- Embedding of `Store.Add`: when `len(s.requests) >= s.maxSize` the oldest
record (`s.requests[1:]`) is evicted, the new record is appended, and the
subscribers are notified. -/
def Store.add (s : Store) (r : CapturedRequest) : Store :=
  let reqs := if s.maxSize ≤ s.requests.length then s.requests.drop 1 else s.requests
  Store.notifySubscribers { s with requests := reqs ++ [r] } r

/-- Embedding of `Store.GetAll` (the Go copy is observationally the list
itself). -/
def Store.getAll (s : Store) : List CapturedRequest :=
  s.requests

/-- Embedding of `Store.GetRecent`: `n <= 0` or `n > len` is clamped to the
full length, and the result is the last `n` records in order. -/
def Store.getRecent (s : Store) (n : Int) : List CapturedRequest :=
  let len := s.requests.length
  let m : Nat := if n ≤ 0 ∨ (len : Int) < n then len else n.toNat
  s.requests.drop (len - m)

/-- Embedding of `Store.GetByID`: first record whose `ID` matches, the Go
`nil` result becoming `none`. -/
def Store.getByID (s : Store) (id : String) : Option CapturedRequest :=
  s.requests.find? (fun r => r.ID == id)

/-- Embedding of `Store.Clear`: the request history is emptied, everything
else (capacity, subscribers) untouched. -/
def Store.clear (s : Store) : Store :=
  { s with requests := [] }

/-- Embedding of `Store.Count`. -/
def Store.count (s : Store) : Nat :=
  s.requests.length

/-- Embedding of `Store.Subscribe`: a fresh channel of capacity 100 is
created and registered; the returned handle names it. -/
def Store.subscribe (s : Store) : Nat × Store :=
  (s.nextHandle,
    { s with channels := s.channels ++ [(s.nextHandle, { cap := 100, buf := [], closed := false })],
             subscribers := s.subscribers ++ [s.nextHandle],
             nextHandle := s.nextHandle + 1 })

/-- Embedding of `Store.Unsubscribe`: the handle is removed from the
subscriber set and its channel is closed.  Closing an already-closed Go
channel panics, which the model signals with `none`.  The model is defined
only on channels recorded in `channels`, i.e. handles that came from
`Store.subscribe`; `none` is also returned outside that domain. -/
def Store.unsubscribe (s : Store) (h : Nat) : Option Store :=
  match s.channels.find? (fun p => p.1 == h) with
  | none => none
  | some p =>
    if p.2.closed then none
    else some { s with
      subscribers := s.subscribers.filter (fun x => x ≠ h),
      channels := s.channels.map
        (fun q => if q.1 == h then (q.1, { q.2 with closed := true }) else q) }

/-- Folding `Store.add` over a list of records, in order. -/
def addAll (s : Store) (rs : List CapturedRequest) : Store :=
  rs.foldl Store.add s

lemma add_requests (s : Store) (r : CapturedRequest) :
    (s.add r).requests =
      (if s.maxSize ≤ s.requests.length then s.requests.drop 1 else s.requests) ++ [r] := rfl

lemma add_maxSize (s : Store) (r : CapturedRequest) : (s.add r).maxSize = s.maxSize := rfl

lemma addAll_maxSize (rs : List CapturedRequest) (s : Store) :
    (addAll s rs).maxSize = s.maxSize := by
  induction rs generalizing s with
  | nil => rfl
  | cons r rest ih => simpa [addAll, List.foldl_cons, add_maxSize] using ih (s.add r)

lemma newStore_maxSize (C : Nat) (hC : 1 ≤ C) : (newStore (C : Int)).maxSize = C := by
  simp [newStore]
  omega

lemma addAll_append_one (s : Store) (rs : List CapturedRequest) (r : CapturedRequest) :
    addAll s (rs ++ [r]) = (addAll s rs).add r := by
  simp [addAll, List.foldl_append]

/-- FIFO content of the store: starting from an empty store of capacity
`C ≥ 1`, a sequence of `Add` calls leaves exactly the records beyond the
first `length - C`, i.e. the last `min length C` records in insertion
order. -/
lemma addAll_newStore_requests (C : Nat) (hC : 1 ≤ C) (rs : List CapturedRequest) :
    (addAll (newStore (C : Int)) rs).requests = rs.drop (rs.length - C) := by
  induction rs using List.reverseRecOn with
  | nil => simp [addAll, newStore]
  | append_singleton rs r ih =>
    rw [addAll_append_one, add_requests, addAll_maxSize, newStore_maxSize C hC, ih]
    by_cases h : C ≤ rs.length
    · have hlen : (rs.drop (rs.length - C)).length = C := by
        rw [List.length_drop]; omega
      rw [if_pos (by omega : C ≤ (rs.drop (rs.length - C)).length)]
      rw [List.drop_drop]
      have h2 : (rs ++ [r]).length - C = rs.length - C + 1 := by
        simp
        omega
      rw [h2]
      have h3 : rs.length - C + 1 ≤ rs.length := by omega
      rw [List.drop_append_of_le_length h3]
    · have hlen : (rs.drop (rs.length - C)).length = rs.length := by
        rw [List.length_drop]; omega
      rw [if_neg (by omega : ¬ C ≤ (rs.drop (rs.length - C)).length)]
      have hl : (rs ++ [r]).length = rs.length + 1 := by simp
      rw [hl]
      have h0 : rs.length - C = 0 := by omega
      have h1 : rs.length + 1 - C = 0 := by omega
      simp [h0, h1]

lemma addAll_newStore_count (C : Nat) (hC : 1 ≤ C) (rs : List CapturedRequest) :
    (addAll (newStore (C : Int)) rs).count = rs.length - (rs.length - C) := by
  rw [Store.count, addAll_newStore_requests C hC, List.length_drop]

/-- Concrete record family for the capacity scenario: record `i` carries an
identifier of `i` letters, so all identifiers are distinct. -/
def mkRec (i : Nat) : CapturedRequest :=
  { ID := String.mk (List.replicate i 'a'), Timestamp := i, Method := "GET", URL := "",
    Host := "", Path := "", Proto := "", RequestHeaders := [], RequestBody := [],
    StatusCode := 0, ResponseHeaders := [], ResponseBody := [], Duration := 0,
    IsHTTPS := false, IsTunnel := false, ClientAddr := "", ProcessName := "",
    ProcessID := 0 }

lemma scenario_requests :
    (addAll (newStore (1000 : Int)) ((List.range 1001).map mkRec)).requests
      = (List.range 1000).map (fun i => mkRec (i + 1)) := by
  have h := addAll_newStore_requests 1000 (by omega) ((List.range 1001).map mkRec)
  simp only [Nat.cast_ofNat] at h
  rw [h]
  have hlen : ((List.range 1001).map mkRec).length = 1001 := by simp
  rw [hlen]
  have : (1001 : Nat) - 1000 = 1 := by omega
  rw [this]
  rw [List.range_succ_eq_map]
  simp [Function.comp]

lemma scenario_byId :
    (addAll (newStore (1000 : Int)) ((List.range 1001).map mkRec)).getByID (mkRec 0).ID
      = none := by
  rw [Store.getByID, scenario_requests, List.find?_eq_none]
  intro x hx
  simp only [List.mem_map] at hx
  obtain ⟨i, _, rfl⟩ := hx
  simp only [mkRec, beq_iff_eq, String.ext_iff, List.replicate_succ, List.replicate_zero]
  simp

/-- C2: for every sequence of `Add` calls into a Store of capacity `C`, the
size never exceeds `C`, insertion order is preserved, and the Store holds
exactly the records past the first `length - C` (so the last `C` of them
once the sequence exceeds `C`); in particular 1001 appends into a Store of
capacity 1000 leave `count` at 1000 and `GetByID` of the first-appended
record returns not-found. -/
theorem store_capacity_fifo :
    (∀ (C : Nat), 1 ≤ C → ∀ (rs : List CapturedRequest),
        (addAll (newStore (C : Int)) rs).count ≤ C ∧
        (addAll (newStore (C : Int)) rs).requests = rs.drop (rs.length - C) ∧
        (C < rs.length → (addAll (newStore (C : Int)) rs).count = C)) ∧
    (addAll (newStore (1000 : Int)) ((List.range 1001).map mkRec)).count = 1000 ∧
    (addAll (newStore (1000 : Int)) ((List.range 1001).map mkRec)).getByID (mkRec 0).ID
      = none := by
  refine ⟨fun C hC rs => ?_, ?_, scenario_byId⟩
  · have hcount := addAll_newStore_count C hC rs
    refine ⟨by omega, addAll_newStore_requests C hC rs, fun hlt => by omega⟩
  · rw [Store.count, scenario_requests]
    simp

/-- Witness for `store_capacity_fifo` at capacity 2 with three records. -/
theorem store_capacity_fifo_witness :
    (addAll (newStore ((2 : Nat) : Int)) [mkRec 0, mkRec 1, mkRec 2]).requests
      = [mkRec 1, mkRec 2] := by
  have h := (store_capacity_fifo.1 2 (by omega) [mkRec 0, mkRec 1, mkRec 2]).2.1
  simpa using h

/-- Lookup of the channel a handle names, mirroring dereferencing a Go
channel value. -/
def findChan (s : Store) (h : Nat) : Option Chan :=
  (s.channels.find? (fun p => p.1 == h)).map (fun p => p.2)

/-- Store well-formedness: every channel handle ever created is below the
next fresh handle.  This holds for every store reachable from `newStore`. -/
def WF (s : Store) : Prop :=
  ∀ p ∈ s.channels, p.1 < s.nextHandle

instance (s : Store) : Decidable (WF s) := by
  unfold WF
  infer_instance

lemma add_subscribers (s : Store) (r : CapturedRequest) :
    (s.add r).subscribers = s.subscribers := rfl

lemma add_channels (s : Store) (r : CapturedRequest) :
    (s.add r).channels = s.channels.map
      (fun p => (p.1, if p.1 ∈ s.subscribers then chanTrySend p.2 r else p.2)) := rfl

lemma findChan_add (s : Store) (r : CapturedRequest) (h : Nat) (c : Chan)
    (hfind : findChan s h = some c) :
    findChan (s.add r) h = some (if h ∈ s.subscribers then chanTrySend c r else c) := by
  unfold findChan at hfind ⊢
  rw [add_channels, List.find?_map]
  have hcomp : ((fun p : Nat × Chan => p.1 == h) ∘
      (fun p : Nat × Chan => (p.1, if p.1 ∈ s.subscribers then chanTrySend p.2 r else p.2)))
      = (fun p : Nat × Chan => p.1 == h) := by
    funext p
    rfl
  rw [hcomp]
  obtain ⟨q, hq, rfl⟩ : ∃ q, s.channels.find? (fun p => p.1 == h) = some q ∧ q.2 = c := by
    cases hfq : s.channels.find? (fun p => p.1 == h) with
    | none => simp [hfq] at hfind
    | some q => exact ⟨q, rfl, by simpa [hfq] using hfind⟩
  have hkey : q.1 = h := by
    have := List.find?_some hq
    simpa using this
  simp [hq, hkey]

lemma findChan_subscribe (s : Store) (hWF : WF s) :
    findChan (s.subscribe).2 (s.subscribe).1
      = some { cap := 100, buf := [], closed := false } := by
  unfold findChan Store.subscribe
  simp only [List.find?_append]
  have hnone : s.channels.find? (fun p => p.1 == s.nextHandle) = none := by
    rw [List.find?_eq_none]
    intro p hp
    have := hWF p hp
    simp
    omega
  rw [hnone]
  simp

lemma findChan_subscribe_other (s : Store) (h : Nat) (c : Chan)
    (hfind : findChan s h = some c) :
    findChan (s.subscribe).2 h = some c := by
  unfold findChan at hfind ⊢
  unfold Store.subscribe
  simp only [List.find?_append]
  cases hfq : s.channels.find? (fun p => p.1 == h) with
  | none => simp [hfq] at hfind
  | some q =>
    rw [hfq] at hfind
    simp at hfind
    simp [hfq, hfind]

/-- Trace operations against the Store used for the subscription fan-out
claims: an `Add` of a record, or a new subscription. -/
inductive StoreOp where
  | add (r : CapturedRequest)
  | subscribe
  deriving Repr, DecidableEq

/-- Run a trace of operations against a store. -/
def runOps (s : Store) : List StoreOp → Store
  | [] => s
  | StoreOp.add r :: rest => runOps (s.add r) rest
  | StoreOp.subscribe :: rest => runOps (s.subscribe).2 rest

/-- Records appended by a trace, in order. -/
def opsAdds : List StoreOp → List CapturedRequest
  | [] => []
  | StoreOp.add r :: rest => r :: opsAdds rest
  | StoreOp.subscribe :: rest => opsAdds rest

lemma runOps_findChan_sublist (ops : List StoreOp) (s : Store) (h : Nat) (c : Chan)
    (hfind : findChan s h = some c) :
    ∃ c2, findChan (runOps s ops) h = some c2 ∧ c2.cap = c.cap ∧
      ∃ l, c2.buf = c.buf ++ l ∧ l.Sublist (opsAdds ops) := by
  induction ops generalizing s c with
  | nil => exact ⟨c, hfind, rfl, [], by simp, by simp [opsAdds]⟩
  | cons op rest ih =>
    cases op with
    | add r =>
      have hstep := findChan_add s r h c hfind
      set c1 := if h ∈ s.subscribers then chanTrySend c r else c with hc1
      have hcap : c1.cap = c.cap := by
        rw [hc1]
        unfold chanTrySend
        by_cases hm : h ∈ s.subscribers
        · rw [if_pos hm]
          by_cases hr : c.buf.length < c.cap
          · rw [if_pos hr]
          · rw [if_neg hr]
        · rw [if_neg hm]
      have hbuf : ∃ l0, c1.buf = c.buf ++ l0 ∧ l0.Sublist [r] := by
        rw [hc1]
        unfold chanTrySend
        by_cases hm : h ∈ s.subscribers
        · rw [if_pos hm]
          by_cases hr : c.buf.length < c.cap
          · rw [if_pos hr]
            exact ⟨[r], rfl, List.Sublist.refl _⟩
          · rw [if_neg hr]
            exact ⟨[], by simp, List.nil_sublist _⟩
        · rw [if_neg hm]
          exact ⟨[], by simp, List.nil_sublist _⟩
      obtain ⟨l0, hl0, hl0s⟩ := hbuf
      obtain ⟨c2, hfind2, hcap2, l, hl, hls⟩ := ih (s.add r) c1 hstep
      refine ⟨c2, by simpa [runOps] using hfind2, by rw [hcap2, hcap], l0 ++ l, ?_, ?_⟩
      · rw [hl, hl0, List.append_assoc]
      · have hadds : opsAdds (StoreOp.add r :: rest) = [r] ++ opsAdds rest := rfl
        rw [hadds]
        exact List.Sublist.append hl0s hls
    | subscribe =>
      have hstep := findChan_subscribe_other s h c hfind
      obtain ⟨c2, hfind2, hcap2, l, hl, hls⟩ := ih (s.subscribe).2 c hstep
      exact ⟨c2, by simpa [runOps] using hfind2, hcap2, l, hl, by simpa [opsAdds] using hls⟩

/-- C8: a record appended while a subscriber is registered is enqueued on
its channel when the queue has room, is dropped (queue unchanged) when the
queue is full, and a channel created by `Subscribe` only ever holds records
appended after the subscription, as a sublist of (hence in) append order. -/
theorem subscriber_delivery :
    (∀ (s : Store) (r : CapturedRequest) (h : Nat) (c : Chan),
        findChan s h = some c → h ∈ s.subscribers → c.buf.length < c.cap →
        findChan (s.add r) h = some { c with buf := c.buf ++ [r] }) ∧
    (∀ (s : Store) (r : CapturedRequest) (h : Nat) (c : Chan),
        findChan s h = some c → ¬ c.buf.length < c.cap →
        findChan (s.add r) h = some c) ∧
    (∀ (s : Store), WF s → ∀ (ops : List StoreOp) (c2 : Chan),
        findChan (runOps (s.subscribe).2 ops) (s.subscribe).1 = some c2 →
        c2.buf.Sublist (opsAdds ops)) := by
  refine ⟨?_, ?_, ?_⟩
  · intro s r h c hfind hmem hroom
    have hstep := findChan_add s r h c hfind
    rw [if_pos hmem] at hstep
    unfold chanTrySend at hstep
    rwa [if_pos hroom] at hstep
  · intro s r h c hfind hfull
    have hstep := findChan_add s r h c hfind
    by_cases hm : h ∈ s.subscribers
    · rw [if_pos hm] at hstep
      unfold chanTrySend at hstep
      rwa [if_neg hfull] at hstep
    · rwa [if_neg hm] at hstep
  · intro s hWF ops c2 hfind
    have h0 := findChan_subscribe s hWF
    obtain ⟨c2x, hf2, _, l, hl, hls⟩ :=
      runOps_findChan_sublist ops (s.subscribe).2 (s.subscribe).1 _ h0
    rw [hfind] at hf2
    have hc : c2 = c2x := by injection hf2
    rw [hc, hl]
    simpa using hls

/-- Witness for `subscriber_delivery`: a fresh subscriber on an empty store
receives the one record appended after it subscribed. -/
theorem subscriber_delivery_witness :
    findChan ((((newStore 10).subscribe).2).add (mkRec 1)) 0
        = some { cap := 100, buf := [mkRec 1], closed := false } ∧
    List.Sublist [mkRec 1] (opsAdds [StoreOp.add (mkRec 1)]) := by
  constructor
  · exact subscriber_delivery.1 ((newStore 10).subscribe).2 (mkRec 1) 0
      { cap := 100, buf := [], closed := false } (by rfl) (by decide) (by decide)
  · exact subscriber_delivery.2.2 (newStore 10) (by decide) [StoreOp.add (mkRec 1)]
      { cap := 100, buf := [mkRec 1], closed := false } (by rfl)


lemma findChan_closeUpdate (l : List (Nat × Chan)) (h : Nat) (p : Nat × Chan)
    (hfq : l.find? (fun q => q.1 == h) = some p) :
    (l.map (fun q => if q.1 == h then (q.1, { q.2 with closed := true }) else q)).find?
        (fun q => q.1 == h) = some (p.1, { p.2 with closed := true }) := by
  rw [List.find?_map]
  have hcomp : ((fun q : Nat × Chan => q.1 == h) ∘
      (fun q : Nat × Chan => if q.1 == h then (q.1, { q.2 with closed := true }) else q))
      = fun q : Nat × Chan => q.1 == h := by
    funext q
    by_cases hq : q.1 = h
    · simp [hq]
    · simp [hq]
  rw [hcomp, hfq]
  have hkey := List.find?_some hfq
  simp at hkey
  simp [hkey]

lemma unsubscribe_of_closed (s : Store) (h : Nat) (c : Chan)
    (hfind : findChan s h = some c) (hc : c.closed = true) : s.unsubscribe h = none := by
  unfold findChan at hfind
  cases hfq : s.channels.find? (fun p => p.1 == h) with
  | none =>
    rw [hfq] at hfind
    simp at hfind
  | some p =>
    rw [hfq] at hfind
    simp at hfind
    simp only [Store.unsubscribe]
    rw [hfq]
    simp [hfind, hc]

lemma unsubscribe_of_open (s : Store) (h : Nat) (c : Chan)
    (hfind : findChan s h = some c) (hc : c.closed = false) :
    ∃ s2, s.unsubscribe h = some s2 ∧ findChan s2 h = some { c with closed := true } := by
  unfold findChan at hfind
  cases hfq : s.channels.find? (fun p => p.1 == h) with
  | none =>
    rw [hfq] at hfind
    simp at hfind
  | some p =>
    rw [hfq] at hfind
    simp at hfind
    refine ⟨{ s with
        subscribers := s.subscribers.filter (fun x => x ≠ h),
        channels := s.channels.map
          (fun q => if q.1 == h then (q.1, { q.2 with closed := true }) else q) }, ?_, ?_⟩
    · simp only [Store.unsubscribe]
      rw [hfq]
      simp [hfind, hc]
    · unfold findChan
      rw [findChan_closeUpdate s.channels h p hfq]
      simp [hfind]

lemma unsubscribe_some_inv (s s1 : Store) (h : Nat) (hun : s.unsubscribe h = some s1) :
    ∃ c, findChan s h = some c ∧ c.closed = false := by
  rcases hfq : s.channels.find? (fun p => p.1 == h) with _ | p
  · simp only [Store.unsubscribe, hfq] at hun
    cases hun
  · simp only [Store.unsubscribe, hfq] at hun
    by_cases hc : p.2.closed = true
    · rw [if_pos hc] at hun
      cases hun
    · refine ⟨p.2, ?_, by simpa using hc⟩
      unfold findChan
      rw [hfq]
      rfl

/-- C10: unsubscribing a handle whose channel is already closed panics
(closing a closed Go channel), so a second `Unsubscribe` of the same handle
always panics; under the implicit precondition that the handle came from
`Subscribe` and was not unsubscribed before, `Unsubscribe` succeeds and the
channel goes from open to closed exactly once. -/
theorem unsubscribe_double_close_panics :
    (∀ (s : Store) (h : Nat) (c : Chan),
        findChan s h = some c → c.closed = true → s.unsubscribe h = none) ∧
    (∀ (s s1 : Store) (h : Nat), s.unsubscribe h = some s1 → s1.unsubscribe h = none) ∧
    (∀ (s : Store), WF s →
        findChan (s.subscribe).2 (s.subscribe).1
            = some { cap := 100, buf := [], closed := false } ∧
        ∃ s2, ((s.subscribe).2).unsubscribe (s.subscribe).1 = some s2 ∧
          findChan s2 (s.subscribe).1 = some { cap := 100, buf := [], closed := true }) := by
  refine ⟨unsubscribe_of_closed, ?_, ?_⟩
  · intro s s1 h hun
    obtain ⟨c, hfind, hc⟩ := unsubscribe_some_inv s s1 h hun
    obtain ⟨s2, hs2, hf2⟩ := unsubscribe_of_open s h c hfind hc
    rw [hun] at hs2
    have hs : s1 = s2 := Option.some.inj hs2
    rw [hs]
    exact unsubscribe_of_closed s2 h { c with closed := true } hf2 rfl
  · intro s hWF
    have h0 := findChan_subscribe s hWF
    refine ⟨h0, ?_⟩
    obtain ⟨s2, hs2, hf2⟩ := unsubscribe_of_open (s.subscribe).2 (s.subscribe).1
      { cap := 100, buf := [], closed := false } h0 rfl
    exact ⟨s2, hs2, hf2⟩

/-- Witness for `unsubscribe_double_close_panics`: on a store with one fresh
subscriber, the first `Unsubscribe` succeeds and the second panics. -/
theorem unsubscribe_double_close_panics_witness :
    (((newStore 10).subscribe).2).unsubscribe 0 ≠ none ∧
    (∀ s1, (((newStore 10).subscribe).2).unsubscribe 0 = some s1 →
        s1.unsubscribe 0 = none) := by
  constructor
  · obtain ⟨-, s2, hs2, -⟩ :=
      unsubscribe_double_close_panics.2.2 (newStore 10) (by decide)
    intro hnone
    have h01 : ((newStore 10).subscribe).1 = 0 := rfl
    rw [h01] at hs2
    rw [hs2] at hnone
    cases hnone
  · intro s1 h1
    exact unsubscribe_double_close_panics.2.1 (((newStore 10).subscribe).2) s1 0 h1

/-- Go `http.Header` / `textproto.MIMEHeader`, modelled as an association
list from field names to value lists; well-formed Go maps have pairwise
distinct keys. -/
abbrev Header := List (String × List String)

/-- Validity of a MIME header field byte, following Go
`textproto.validHeaderFieldByte`: ASCII letters, digits, and the token
punctuation set. -/
def validHeaderFieldChar (c : Char) : Bool :=
  c.isAlpha || c.isDigit ||
    ['!', '#', '$', '%', '&', '*', '+', '-', '.', '^', '_', '|', '~',
      Char.ofNat 39, Char.ofNat 96].contains c

/-- Case transformation loop of Go `textproto.canonicalMIMEHeaderKey`:
uppercase the first letter and every letter that follows a hyphen,
lowercase every other letter. -/
def canonicalChars : Bool → List Char → List Char
  | _, [] => []
  | upper, c :: rest =>
    let d := if upper then c.toUpper else c.toLower
    d :: canonicalChars (d == '-') rest

/-- Go `textproto.CanonicalMIMEHeaderKey`: a key containing an invalid
byte is returned unchanged, otherwise its canonical capitalization. -/
def canonicalHeaderKey (s : String) : String :=
  if s.data.all validHeaderFieldChar then String.mk (canonicalChars true s.data) else s

/-- Embedding of `http.Header.Add`: the key is canonicalized and the value
appended to the entry for that key, creating the entry if absent. -/
def headerAdd (h : Header) (key value : String) : Header :=
  match h.find? (fun p => p.1 == canonicalHeaderKey key) with
  | some _ =>
    h.map (fun p => if p.1 == canonicalHeaderKey key then (p.1, p.2 ++ [value]) else p)
  | none => h ++ [(canonicalHeaderKey key, [value])]

/-- Embedding of `http.Header.Del`: the entry under the canonicalized key
is removed. -/
def headerDel (h : Header) (key : String) : Header :=
  h.filter (fun p => p.1 ≠ canonicalHeaderKey key)

/-- Embedding of `http.Header.Get`: first value stored under the
canonicalized key; the Go empty-string result for a missing or empty entry
becomes `none`. -/
def headerGet (h : Header) (key : String) : Option String :=
  match h.find? (fun p => p.1 == canonicalHeaderKey key) with
  | some (_, v :: _) => some v
  | _ => none

/-- Embedding of `copyHeaders` in handler.go: every value of every source
entry is `Add`ed to the destination. -/
def copyHeaders (dst src : Header) : Header :=
  src.foldl (fun d p => p.2.foldl (fun d2 v => headerAdd d2 p.1 v) d) dst

/-- The `hopByHopHeaders` list of handler.go. -/
def hopByHopHeaders : List String :=
  ["Connection", "Keep-Alive", "Proxy-Authenticate", "Proxy-Authorization",
   "Te", "Trailer", "Transfer-Encoding", "Upgrade"]

/-- Embedding of `removeHopByHopHeaders` in handler.go: `Del` of each
hop-by-hop name. -/
def removeHopByHopHeaders (h : Header) : Header :=
  hopByHopHeaders.foldl headerDel h

lemma find?_filter_none {α} (l : List α) (p q : α → Bool) (hnone : l.find? p = none) :
    (l.filter q).find? p = none := by
  rw [List.find?_eq_none] at hnone ⊢
  intro x hx
  exact hnone x (List.mem_of_mem_filter hx)

lemma find?_filter_of_imp {α} (l : List α) (p q : α → Bool)
    (himp : ∀ x, p x = true → q x = true) : (l.filter q).find? p = l.find? p := by
  induction l with
  | nil => rfl
  | cons a t ih =>
    cases hq : q a with
    | false =>
      have hpa : p a = false := by
        cases hpa : p a with
        | false => rfl
        | true => rw [himp a hpa] at hq; cases hq
      rw [List.filter_cons_of_neg (by simp [hq]), List.find?_cons_of_neg _ (by simp [hpa]), ih]
    | true =>
      rw [List.filter_cons_of_pos (by simp [hq])]
      cases hpa : p a with
      | false =>
        rw [List.find?_cons_of_neg _ (by simp [hpa]), List.find?_cons_of_neg _ (by simp [hpa]), ih]
      | true =>
        rw [List.find?_cons_of_pos _ (by simp [hpa]), List.find?_cons_of_pos _ (by simp [hpa])]

lemma headerDel_find?_none (h : Header) (k : String) :
    (headerDel h k).find? (fun p => p.1 == canonicalHeaderKey k) = none := by
  rw [List.find?_eq_none]
  intro x hx
  have := List.of_mem_filter hx
  simp at this
  simp [this]

lemma mem_foldDel (names : List String) (h : Header) (x : String × List String)
    (hx : x ∈ names.foldl headerDel h) :
    x ∈ h ∧ ∀ n ∈ names, x.1 ≠ canonicalHeaderKey n := by
  induction names generalizing h with
  | nil => exact ⟨hx, by simp⟩
  | cons m rest ih =>
    have hstep := ih (headerDel h m) hx
    have hmem := List.mem_of_mem_filter hstep.1
    have hne : x.1 ≠ canonicalHeaderKey m := by
      have := List.of_mem_filter hstep.1
      simpa using this
    refine ⟨hmem, ?_⟩
    intro n hn
    rcases List.mem_cons.1 hn with rfl | hn2
    · exact hne
    · exact hstep.2 n hn2

lemma foldDel_find?_none (names : List String) (h : Header) (k : String)
    (hmem : canonicalHeaderKey k ∈ names)
    (hfix : canonicalHeaderKey (canonicalHeaderKey k) = canonicalHeaderKey k) :
    (names.foldl headerDel h).find? (fun p => p.1 == canonicalHeaderKey k) = none := by
  rw [List.find?_eq_none]
  intro x hx
  have hprops := mem_foldDel names h x hx
  have := hprops.2 (canonicalHeaderKey k) hmem
  rw [hfix] at this
  simp [this]

lemma foldDel_find?_other (names : List String) (h : Header) (K : String)
    (hK : ∀ n ∈ names, K ≠ canonicalHeaderKey n) :
    (names.foldl headerDel h).find? (fun p => p.1 == K) = h.find? (fun p => p.1 == K) := by
  induction names generalizing h with
  | nil => rfl
  | cons m rest ih =>
    have hrest : ∀ n ∈ rest, K ≠ canonicalHeaderKey n := fun n hn => hK n (List.mem_cons_of_mem m hn)
    rw [List.foldl_cons, ih (headerDel h m) hrest]
    unfold headerDel
    apply find?_filter_of_imp
    intro x hpx
    have hxK : x.1 = K := by simpa using hpx
    have := hK m (List.mem_cons_self m rest)
    simp [hxK, this]

lemma hop_names_canonical : ∀ n ∈ hopByHopHeaders, canonicalHeaderKey n = n := by decide

lemma removeHop_get_none (h : Header) (k : String)
    (hk : canonicalHeaderKey k ∈ hopByHopHeaders) :
    headerGet (removeHopByHopHeaders h) k = none := by
  unfold headerGet removeHopByHopHeaders
  rw [foldDel_find?_none hopByHopHeaders h k hk (hop_names_canonical _ hk)]

lemma removeHop_keys (h : Header) (x : String × List String)
    (hx : x ∈ removeHopByHopHeaders h) : x.1 ∉ hopByHopHeaders := by
  intro hmem
  have hprops := mem_foldDel hopByHopHeaders h x hx
  have := hprops.2 x.1 hmem
  rw [hop_names_canonical x.1 hmem] at this
  exact this rfl

lemma removeHop_get_other (h : Header) (k : String)
    (hk : canonicalHeaderKey k ∉ hopByHopHeaders) :
    headerGet (removeHopByHopHeaders h) k = headerGet h k := by
  unfold headerGet removeHopByHopHeaders
  rw [foldDel_find?_other hopByHopHeaders h (canonicalHeaderKey k) ?_]
  intro n hn hEq
  rw [hop_names_canonical n hn] at hEq
  rw [hEq] at hk
  exact hk hn

/-- Folding `headerAdd` of one key over a list of values. -/
def addValues (d : Header) (k : String) (vs : List String) : Header :=
  vs.foldl (fun d2 v => headerAdd d2 k v) d

lemma copyHeaders_cons (dst : Header) (p : String × List String) (rest : Header) :
    copyHeaders dst (p :: rest) = copyHeaders (addValues dst p.1 p.2) rest := rfl

lemma map_keys_ne (d : Header) (k : String) (v : String)
    (hd : ∀ p ∈ d, p.1 ≠ k) :
    d.map (fun p => if p.1 == k then (p.1, p.2 ++ [v]) else p) = d := by
  induction d with
  | nil => rfl
  | cons a t ih =>
    have ht : ∀ p ∈ t, p.1 ≠ k := fun p hp => hd p (List.mem_cons_of_mem a hp)
    have ha : ¬ ((a.1 == k) = true) := by simpa using hd a (List.mem_cons_self a t)
    simp only [List.map_cons, if_neg ha, ih ht]

lemma headerAdd_last (d : Header) (k : String) (acc : List String) (v : String)
    (hk : canonicalHeaderKey k = k) (hd : ∀ p ∈ d, p.1 ≠ k) :
    headerAdd (d ++ [(k, acc)]) k v = d ++ [(k, acc ++ [v])] := by
  unfold headerAdd
  rw [hk]
  have hnone : d.find? (fun p => p.1 == k) = none := by
    rw [List.find?_eq_none]
    intro x hx
    simpa using hd x hx
  have hfind : (d ++ [(k, acc)]).find? (fun p => p.1 == k) = some (k, acc) := by
    rw [List.find?_append, hnone]
    simp
  rw [hfind]
  show (d ++ [(k, acc)]).map (fun p => if p.1 == k then (p.1, p.2 ++ [v]) else p)
      = d ++ [(k, acc ++ [v])]
  rw [List.map_append, map_keys_ne d k v hd]
  simp

lemma addValues_last (d : Header) (k : String) (acc vs : List String)
    (hk : canonicalHeaderKey k = k) (hd : ∀ p ∈ d, p.1 ≠ k) :
    addValues (d ++ [(k, acc)]) k vs = d ++ [(k, acc ++ vs)] := by
  induction vs generalizing acc with
  | nil => simp [addValues]
  | cons v rest ih =>
    unfold addValues
    rw [List.foldl_cons, headerAdd_last d k acc v hk hd]
    have := ih (acc ++ [v])
    unfold addValues at this
    rw [this]
    simp

lemma addValues_fresh (d : Header) (k : String) (vs : List String)
    (hk : canonicalHeaderKey k = k) (hd : ∀ p ∈ d, p.1 ≠ k) (hvs : vs ≠ []) :
    addValues d k vs = d ++ [(k, vs)] := by
  cases vs with
  | nil => cases hvs rfl
  | cons v rest =>
    unfold addValues
    rw [List.foldl_cons]
    have hadd : headerAdd d k v = d ++ [(k, [v])] := by
      unfold headerAdd
      rw [hk]
      have hnone : d.find? (fun p => p.1 == k) = none := by
        rw [List.find?_eq_none]
        intro x hx
        simpa using hd x hx
      rw [hnone]
    rw [hadd]
    have := addValues_last d k [v] rest hk hd
    unfold addValues at this
    rw [this]
    simp

/-- A header map as produced by the Go parser: canonical pairwise-distinct
keys and nonempty value lists. -/
def CanonicalHeader (h : Header) : Prop :=
  (∀ p ∈ h, canonicalHeaderKey p.1 = p.1 ∧ p.2 ≠ []) ∧ (h.map Prod.fst).Nodup

lemma copyHeaders_eq_append (src : Header) (d : Header)
    (hsrc : ∀ p ∈ src, canonicalHeaderKey p.1 = p.1 ∧ p.2 ≠ [])
    (hnodup : (src.map Prod.fst).Nodup)
    (hdisj : ∀ p ∈ src, ∀ q ∈ d, q.1 ≠ p.1) :
    copyHeaders d src = d ++ src := by
  induction src generalizing d with
  | nil => simp [copyHeaders]
  | cons a rest ih =>
    rw [copyHeaders_cons]
    have ha := hsrc a (List.mem_cons_self a rest)
    have hdk : ∀ p ∈ d, p.1 ≠ a.1 := fun p hp => hdisj a (List.mem_cons_self a rest) p hp
    rw [addValues_fresh d a.1 a.2 ha.1 hdk ha.2]
    have hrest : ∀ p ∈ rest, canonicalHeaderKey p.1 = p.1 ∧ p.2 ≠ [] :=
      fun p hp => hsrc p (List.mem_cons_of_mem a hp)
    have hnc := hnodup
    rw [List.map_cons] at hnc
    have hkey : a.1 ∉ rest.map Prod.fst := (List.nodup_cons.1 hnc).1
    have hnodup2 : (rest.map Prod.fst).Nodup := (List.nodup_cons.1 hnc).2
    have hdisj2 : ∀ p ∈ rest, ∀ q ∈ d ++ [(a.1, a.2)], q.1 ≠ p.1 := by
      intro p hp q hq
      rcases List.mem_append.1 hq with hq1 | hq2
      · exact hdisj p (List.mem_cons_of_mem a hp) q hq1
      · have hqa : q = (a.1, a.2) := by simpa using hq2
        subst hqa
        intro hEq
        apply hkey
        simp at hEq
        rw [hEq]
        exact List.mem_map_of_mem Prod.fst hp
    have := ih (d ++ [(a.1, a.2)]) hrest hnodup2 hdisj2
    rw [this]
    simp

/-- Embedding of the fields of `net/url.URL` the proxy reads (user info,
the non-hierarchical component and the fragment, which proxy request URLs
do not carry, are omitted; the path stands for its escaped form). -/
structure URL where
  scheme : String
  host : String
  path : String
  rawQuery : String
  deriving Repr, DecidableEq

/-- Go `URL.IsAbs`: the URL carries a scheme. -/
def URL.isAbs (u : URL) : Bool := u.scheme ≠ ""

/-- Go `URL.String` on the modelled fields: `scheme:`, then `//host`
whenever a scheme or host is present, a separating slash for a rootless
path next to a host, the path, and `?query` when a query is present. -/
def URL.string (u : URL) : String :=
  (if u.scheme ≠ "" then u.scheme ++ ":" else "")
    ++ (if u.scheme ≠ "" ∨ u.host ≠ "" then "//" ++ u.host else "")
    ++ (if u.path ≠ "" ∧ u.path.data.head? ≠ some (Char.ofNat 47) ∧ u.host ≠ "" then "/" else "")
    ++ u.path
    ++ (if u.rawQuery ≠ "" then "?" ++ u.rawQuery else "")

/-- Embedding of the fields of `http.Request` the handler reads: `tls`
models `r.TLS != nil`, `body` the presence and bytes of a request body,
`contentLength` the declared `ContentLength` (negative when unknown, as
for chunked transfer encoding). -/
structure Request where
  method : String
  url : URL
  host : String
  proto : String
  header : Header
  body : Option (List Nat)
  contentLength : Int
  remoteAddr : String
  tls : Bool

/-- Embedding of `Handler.buildTargetURL`: an absolute request URL is used
verbatim, otherwise the URL is synthesized from the `Host` header with
scheme `https` exactly when the inbound connection carries TLS state. -/
def buildTargetURL (r : Request) : String :=
  if r.url.isAbs then r.url.string
  else
    URL.string { scheme := if r.tls then "https" else "http", host := r.host,
                 path := r.url.path, rawQuery := r.url.rawQuery }

/-- Embedding of `http.Response` as the handler consumes it. -/
structure Response where
  statusCode : Nat
  header : Header
  body : List Nat
  deriving Repr, DecidableEq

/-- Transport-level failures of `http.Client.Do` (DNS, connect, timeout),
plus the redirect-loop error ten follows produce under the default
policy. -/
inductive TransportError where
  | dnsError
  | connectError
  | timeoutError
  | tooManyRedirects
  deriving Repr, DecidableEq

/-- The `CheckRedirect` behavior of an `http.Client`: the Go default
follows redirects, `http.ErrUseLastResponse` stops at the first
response. -/
inductive RedirectPolicy where
  | followDefault
  | useLastResponse
  deriving Repr, DecidableEq

/-- The redirect policy installed by `NewHandler`: `CheckRedirect` returns
`http.ErrUseLastResponse`, so redirect responses are returned as-is. -/
def newHandlerRedirectPolicy : RedirectPolicy := RedirectPolicy.useLastResponse

/-- Status codes on which the Go HTTP client would follow a redirect. -/
def isRedirectStatus (c : Nat) : Bool :=
  c == 301 || c == 302 || c == 303 || c == 307 || c == 308

/-- Model of the redirect loop inside `http.Client.Do`: the origin is a
chain of responses indexed by redirect depth; under the default policy a
redirect status moves to the next response (ten hops at most), under
`useLastResponse` the current response is returned untouched. -/
def clientDoAux (policy : RedirectPolicy) (origin : Nat → Except TransportError Response) :
    Nat → Nat → Except TransportError Response
  | 0, i =>
    match origin i with
    | Except.error e => Except.error e
    | Except.ok resp =>
      if isRedirectStatus resp.statusCode ∧ policy = RedirectPolicy.followDefault then
        Except.error TransportError.tooManyRedirects
      else Except.ok resp
  | fuel + 1, i =>
    match origin i with
    | Except.error e => Except.error e
    | Except.ok resp =>
      if isRedirectStatus resp.statusCode ∧ policy = RedirectPolicy.followDefault then
        clientDoAux policy origin fuel (i + 1)
      else Except.ok resp

/-- Model of `http.Client.Do` as configured: start at the first response
with ten redirect hops available. -/
def clientDo (policy : RedirectPolicy) (origin : Nat → Except TransportError Response) :
    Except TransportError Response :=
  clientDoAux policy origin 10 0

lemma clientDoAux_useLast (origin : Nat → Except TransportError Response) (fuel i : Nat) :
    clientDoAux RedirectPolicy.useLastResponse origin fuel i = origin i := by
  cases fuel with
  | zero => cases h : origin i <;> simp [clientDoAux, h]
  | succ n => cases h : origin i <;> simp [clientDoAux, h]

lemma clientDo_useLast (origin : Nat → Except TransportError Response) :
    clientDo RedirectPolicy.useLastResponse origin = origin 0 := by
  unfold clientDo
  exact clientDoAux_useLast origin 10 0

/-- Configuration of `Handler` relevant to `handleHTTP`: the body size cap
(`maxRequestSize`, an int64 in Go). -/
structure HandlerCfg where
  maxRequestSize : Int

/-- Per-request environment of `handleHTTP`: generated UUID, capture time,
measured elapsed duration, whether `http.NewRequestWithContext` fails, and
the origin behavior the HTTP client observes. -/
structure HTTPEnv where
  id : String
  now : Nat
  duration : Nat
  newRequestErr : Bool
  origin : Nat → Except TransportError Response

/-- Observable outcome of `handleHTTP`: status, headers and body written
to the client, the outbound request headers and body when an outbound
request was built, and the records handed to the Store. -/
structure HTTPResult where
  clientStatus : Nat
  clientHeader : Header
  clientBody : List Nat
  outboundHeader : Option Header
  outboundBody : Option (List Nat)
  stored : List CapturedRequest
  deriving Repr, DecidableEq

/-- Bytes of a string, for response bodies written by `http.Error`. -/
def strBytes (s : String) : List Nat := s.data.map Char.toNat

/-- Headers set by Go `http.Error` on the response writer. -/
def httpErrorHeader : Header :=
  [("Content-Type", ["text/plain; charset=utf-8"]),
   ("X-Content-Type-Options", ["nosniff"])]

/-- Request body bytes read by `handleHTTP`:
`io.ReadAll(io.LimitReader(r.Body, maxRequestSize))`, executed only when a
body is present and `ContentLength > 0`; otherwise the captured and
forwarded body stays empty. -/
def truncatedRequestBody (cfg : HandlerCfg) (r : Request) : List Nat :=
  if r.body.isSome ∧ r.contentLength > 0 then
    (r.body.getD []).take cfg.maxRequestSize.toNat
  else []

/-- Outbound request headers: inbound headers copied onto the fresh
outbound request, then hop-by-hop headers removed. -/
def outboundRequestHeader (r : Request) : Header :=
  removeHopByHopHeaders (copyHeaders [] r.header)

/-- Headers relayed to the client on success: response headers copied onto
the response writer, then hop-by-hop headers removed. -/
def relayedResponseHeader (resp : Response) : Header :=
  removeHopByHopHeaders (copyHeaders [] resp.header)

/-- The capture record `handleHTTP` builds on a successful forward. -/
def capturedOf (cfg : HandlerCfg) (r : Request) (env : HTTPEnv) (resp : Response) :
    CapturedRequest :=
  { ID := env.id, Timestamp := env.now, Method := r.method, URL := buildTargetURL r,
    Host := r.host, Path := r.url.path, Proto := r.proto, RequestHeaders := r.header,
    RequestBody := truncatedRequestBody cfg r, StatusCode := resp.statusCode,
    ResponseHeaders := resp.header,
    ResponseBody := resp.body.take cfg.maxRequestSize.toNat,
    Duration := env.duration, IsHTTPS := false, IsTunnel := false,
    ClientAddr := r.remoteAddr, ProcessName := "", ProcessID := 0 }

/-- Embedding of `Handler.handleHTTP` (handler.go).  Its three exits:
`http.NewRequestWithContext` failure responds Bad Request and returns;
`httpClient.Do` failure responds Bad Gateway and returns (note: before
`store.Add`, so nothing is stored); success relays status, stripped
headers and truncated body to the client and stores one record. -/
def handleHTTP (cfg : HandlerCfg) (r : Request) (env : HTTPEnv) : HTTPResult :=
  if env.newRequestErr then
    { clientStatus := 400, clientHeader := httpErrorHeader,
      clientBody := strBytes "Bad Request\n", outboundHeader := none,
      outboundBody := none, stored := [] }
  else
    match clientDo newHandlerRedirectPolicy env.origin with
    | Except.error _ =>
      { clientStatus := 502, clientHeader := httpErrorHeader,
        clientBody := strBytes "Bad Gateway\n",
        outboundHeader := some (outboundRequestHeader r),
        outboundBody := some (truncatedRequestBody cfg r), stored := [] }
    | Except.ok resp =>
      { clientStatus := resp.statusCode,
        clientHeader := relayedResponseHeader resp,
        clientBody := resp.body.take cfg.maxRequestSize.toNat,
        outboundHeader := some (outboundRequestHeader r),
        outboundBody := some (truncatedRequestBody cfg r),
        stored := [capturedOf cfg r env resp] }

/-- Sample handler configuration: a 1 KiB body cap. -/
def cfg0 : HandlerCfg := { maxRequestSize := 1024 }

/-- Sample inbound request in explicit-proxy form. -/
def req0 : Request :=
  { method := "GET",
    url := { scheme := "http", host := "example.test", path := "/a", rawQuery := "b=1" },
    host := "example.test", proto := "HTTP/1.1", header := [("X-Test", ["v"])],
    body := none, contentLength := 0, remoteAddr := "127.0.0.1:40000", tls := false }

/-- Environment in which the dispatch fails with a connect error. -/
def envFail : HTTPEnv :=
  { id := "id-fail", now := 0, duration := 5, newRequestErr := false,
    origin := fun _ => Except.error TransportError.connectError }

/-- Environment in which the dispatch fails with a timeout. -/
def envFail2 : HTTPEnv :=
  { id := "id-fail2", now := 0, duration := 7, newRequestErr := false,
    origin := fun _ => Except.error TransportError.timeoutError }

/-- C1 counterexample: on a transport failure the handler answers Bad
Gateway but the `stored` list is empty — `handleHTTP` returns before
`store.Add`, so no finalized record with the failure status is handed to
the Store, contradicting the claim. -/
theorem transport_failure_counterexample :
    (handleHTTP cfg0 req0 envFail).clientStatus = 502 ∧
    (handleHTTP cfg0 req0 envFail).stored = [] ∧
    ¬ ∃ rec ∈ (handleHTTP cfg0 req0 envFail).stored, rec.StatusCode = 502 := by
  refine ⟨rfl, rfl, ?_⟩
  rintro ⟨rec, hrec, -⟩
  have : (handleHTTP cfg0 req0 envFail).stored = [] := rfl
  rw [this] at hrec
  cases hrec

/-- C1 (amended): on every transport failure of the dispatch, `handleHTTP`
responds Bad Gateway to the client and returns without handing any record
to the Store. -/
theorem transport_failure_no_record (cfg : HandlerCfg) (r : Request) (env : HTTPEnv)
    (e : TransportError) (hreq : env.newRequestErr = false)
    (hfail : clientDo newHandlerRedirectPolicy env.origin = Except.error e) :
    (handleHTTP cfg r env).clientStatus = 502 ∧
    (handleHTTP cfg r env).clientBody = strBytes "Bad Gateway\n" ∧
    (handleHTTP cfg r env).stored = [] := by
  unfold handleHTTP
  rw [hreq, hfail]
  simp

/-- Witness for `transport_failure_no_record` on a timeout environment. -/
theorem transport_failure_no_record_witness :
    (handleHTTP cfg0 req0 envFail2).clientStatus = 502 ∧
    (handleHTTP cfg0 req0 envFail2).clientBody = strBytes "Bad Gateway\n" ∧
    (handleHTTP cfg0 req0 envFail2).stored = [] :=
  transport_failure_no_record cfg0 req0 envFail2 TransportError.timeoutError rfl rfl

lemma headerGet_none_of_find?_none (h : Header) (k : String)
    (hnone : h.find? (fun p => p.1 == canonicalHeaderKey k) = none) :
    headerGet h k = none := by
  unfold headerGet
  rw [hnone]

lemma httpErrorHeader_keys :
    ∀ p ∈ httpErrorHeader, p.1 ∉ hopByHopHeaders := by decide

lemma httpErrorHeader_get_none (k : String) (hk : canonicalHeaderKey k ∈ hopByHopHeaders) :
    headerGet httpErrorHeader k = none := by
  apply headerGet_none_of_find?_none
  rw [List.find?_eq_none]
  intro p hp hbeq
  have hpk : p.1 = canonicalHeaderKey k := by simpa using hbeq
  exact httpErrorHeader_keys p hp (hpk ▸ hk)

/-- C3: no hop-by-hop header (nor any key canonicalizing to one) survives:
`Get` of such a key on the outbound request headers returns nothing and no
entry carries such a key, and the same holds for the headers relayed (or
written by `http.Error`) to the client, on every path of `handleHTTP` and
for every input header set. -/
theorem hop_by_hop_stripped (cfg : HandlerCfg) (r : Request) (env : HTTPEnv) (k : String)
    (hk : canonicalHeaderKey k ∈ hopByHopHeaders) :
    (∀ oh, (handleHTTP cfg r env).outboundHeader = some oh →
        headerGet oh k = none ∧ ∀ p ∈ oh, p.1 ∉ hopByHopHeaders) ∧
    (headerGet (handleHTTP cfg r env).clientHeader k = none ∧
        ∀ p ∈ (handleHTTP cfg r env).clientHeader, p.1 ∉ hopByHopHeaders) := by
  have houtbound : ∀ oh, (handleHTTP cfg r env).outboundHeader = some oh →
      oh = outboundRequestHeader r := by
    intro oh hoh
    unfold handleHTTP at hoh
    by_cases hreq : env.newRequestErr
    · rw [if_pos hreq] at hoh
      cases hoh
    · rw [if_neg hreq] at hoh
      cases hdo : clientDo newHandlerRedirectPolicy env.origin with
      | error e =>
        rw [hdo] at hoh
        exact (Option.some.inj hoh).symm
      | ok resp =>
        rw [hdo] at hoh
        exact (Option.some.inj hoh).symm
  have hclient : (handleHTTP cfg r env).clientHeader = httpErrorHeader ∨
      ∃ resp, (handleHTTP cfg r env).clientHeader = relayedResponseHeader resp := by
    unfold handleHTTP
    by_cases hreq : env.newRequestErr
    · rw [if_pos hreq]
      exact Or.inl rfl
    · rw [if_neg hreq]
      cases hdo : clientDo newHandlerRedirectPolicy env.origin with
      | error e => exact Or.inl rfl
      | ok resp => exact Or.inr ⟨resp, rfl⟩
  constructor
  · intro oh hoh
    rw [houtbound oh hoh]
    unfold outboundRequestHeader
    exact ⟨removeHop_get_none _ k hk, fun p hp => removeHop_keys _ p hp⟩
  · rcases hclient with hch | ⟨resp, hch⟩
    · rw [hch]
      exact ⟨httpErrorHeader_get_none k hk, httpErrorHeader_keys⟩
    · rw [hch]
      unfold relayedResponseHeader
      exact ⟨removeHop_get_none _ k hk, fun p hp => removeHop_keys _ p hp⟩

/-- Witness for `hop_by_hop_stripped`: a request carrying `Connection` and
`Upgrade` headers (the canonical key of lowercase `connection` is
`Connection`). -/
theorem hop_by_hop_stripped_witness :
    canonicalHeaderKey "connection" ∈ hopByHopHeaders ∧
    (∀ oh, (handleHTTP cfg0
        { req0 with header :=
            [("Connection", ["keep-alive"]), ("Upgrade", ["h2c"]), ("X-Test", ["v"])] }
        envFail).outboundHeader = some oh → headerGet oh "connection" = none) := by
  constructor
  · decide
  · intro oh hoh
    exact ((hop_by_hop_stripped cfg0
      { req0 with header :=
          [("Connection", ["keep-alive"]), ("Upgrade", ["h2c"]), ("X-Test", ["v"])] }
      envFail "connection" (by decide)).1 oh hoh).1

/-- C4: when the origin answers with a redirect, `handleHTTP` relays that
same status code and the `Location` header value unmodified to the client;
the configured client (`CheckRedirect` returning `ErrUseLastResponse`)
hands back the first response and never follows.  The header hypothesis
states that the response header map is as the Go response parser produces
it: canonical distinct keys with nonempty value lists. -/
theorem redirect_relayed_unmodified (cfg : HandlerCfg) (r : Request) (env : HTTPEnv)
    (resp : Response) (hreq : env.newRequestErr = false)
    (horigin : env.origin 0 = Except.ok resp)
    (_hredir : isRedirectStatus resp.statusCode = true)
    (hcanon : CanonicalHeader resp.header) :
    clientDo newHandlerRedirectPolicy env.origin = env.origin 0 ∧
    (handleHTTP cfg r env).clientStatus = resp.statusCode ∧
    headerGet (handleHTTP cfg r env).clientHeader "Location"
      = headerGet resp.header "Location" := by
  have hdo : clientDo newHandlerRedirectPolicy env.origin = Except.ok resp := by
    rw [show newHandlerRedirectPolicy = RedirectPolicy.useLastResponse from rfl,
      clientDo_useLast, horigin]
  have hres : handleHTTP cfg r env =
      { clientStatus := resp.statusCode,
        clientHeader := relayedResponseHeader resp,
        clientBody := resp.body.take cfg.maxRequestSize.toNat,
        outboundHeader := some (outboundRequestHeader r),
        outboundBody := some (truncatedRequestBody cfg r),
        stored := [capturedOf cfg r env resp] } := by
    unfold handleHTTP
    rw [hreq, hdo]
    simp
  refine ⟨by rw [hdo, horigin], ?_, ?_⟩
  · rw [hres]
  · rw [hres]
    show headerGet (relayedResponseHeader resp) "Location" = headerGet resp.header "Location"
    unfold relayedResponseHeader
    rw [copyHeaders_eq_append resp.header [] hcanon.1 hcanon.2
      (by intro p hp q hq; cases hq)]
    rw [List.nil_append]
    exact removeHop_get_other resp.header "Location" (by decide)

instance (h : Header) : Decidable (CanonicalHeader h) := by
  unfold CanonicalHeader
  infer_instance

/-- A concrete redirect response. -/
def redirectResp : Response :=
  { statusCode := 302, header := [("Location", ["http://example.test/next"])], body := [] }

/-- Environment whose origin answers the redirect response. -/
def envRedirect : HTTPEnv :=
  { id := "id-redir", now := 0, duration := 3, newRequestErr := false,
    origin := fun _ => Except.ok redirectResp }

/-- Witness for `redirect_relayed_unmodified` on a concrete 302. -/
theorem redirect_relayed_unmodified_witness :
    (handleHTTP cfg0 req0 envRedirect).clientStatus = 302 ∧
    headerGet (handleHTTP cfg0 req0 envRedirect).clientHeader "Location"
      = some "http://example.test/next" := by
  have h := redirect_relayed_unmodified cfg0 req0 envRedirect redirectResp rfl rfl
    (by decide) (by decide)
  refine ⟨h.2.1, ?_⟩
  rw [h.2.2]
  rfl

lemma urlString_scheme (sch host path q : String) (hsch : sch ≠ "") :
    URL.string { scheme := sch, host := host, path := path, rawQuery := q }
      = sch ++ "://" ++ host
          ++ (if path ≠ "" ∧ path.data.head? ≠ some (Char.ofNat 47) ∧ host ≠ "" then "/" else "")
          ++ path ++ (if q ≠ "" then "?" ++ q else "") := by
  unfold URL.string
  simp only
  rw [if_pos hsch, if_pos (Or.inl hsch)]
  have key : (sch ++ ":") ++ ("//" ++ host) = sch ++ "://" ++ host := by
    rw [← String.append_assoc, String.append_assoc sch ":" "//"]
    rfl
  rw [key]

/-- C5: the target URL is the request URL rendered verbatim when that URL
is absolute; otherwise it is `scheme://host[/]path[?query]` synthesized
from the `Host` header, with scheme `https` exactly when the inbound
connection carries TLS (an encrypted inbound connection is never
downgraded to an `http://` target). -/
theorem target_url_resolution (r : Request) :
    (r.url.isAbs = true → buildTargetURL r = r.url.string) ∧
    (r.url.isAbs = false → r.tls = true →
        buildTargetURL r
          = "https://" ++ r.host
              ++ (if r.url.path ≠ "" ∧ r.url.path.data.head? ≠ some (Char.ofNat 47) ∧ r.host ≠ ""
                  then "/" else "")
              ++ r.url.path
              ++ (if r.url.rawQuery ≠ "" then "?" ++ r.url.rawQuery else "")) ∧
    (r.url.isAbs = false → r.tls = false →
        buildTargetURL r
          = "http://" ++ r.host
              ++ (if r.url.path ≠ "" ∧ r.url.path.data.head? ≠ some (Char.ofNat 47) ∧ r.host ≠ ""
                  then "/" else "")
              ++ r.url.path
              ++ (if r.url.rawQuery ≠ "" then "?" ++ r.url.rawQuery else "")) := by
  refine ⟨?_, ?_, ?_⟩
  · intro habs
    unfold buildTargetURL
    rw [habs]
    simp
  · intro habs htls
    unfold buildTargetURL
    rw [habs, htls]
    exact urlString_scheme "https" r.host r.url.path r.url.rawQuery (by decide)
  · intro habs htls
    unfold buildTargetURL
    rw [habs, htls]
    exact urlString_scheme "http" r.host r.url.path r.url.rawQuery (by decide)


/-- A relative (origin-form) TLS request to `example.test`. -/
def reqRel : Request :=
  { method := "GET",
    url := { scheme := "", host := "", path := "/a", rawQuery := "b=1" },
    host := "example.test", proto := "HTTP/1.1", header := [],
    body := none, contentLength := 0, remoteAddr := "127.0.0.1:40001", tls := true }

/-- Witness for `target_url_resolution`: a relative request line to host
`example.test` over TLS synthesizes an `https://` target, and the absolute
request line of `req0` is used verbatim. -/
theorem target_url_resolution_witness :
    buildTargetURL reqRel = "https://example.test/a?b=1" ∧
    buildTargetURL req0 = "http://example.test/a?b=1" := by
  constructor
  · have h := (target_url_resolution reqRel).2.1 (by decide) rfl
    rw [h]
    decide
  · have h := (target_url_resolution req0).1 (by decide)
    rw [h]
    decide

/-- A request with a present body whose declared length is unknown
(chunked transfer encoding reports `ContentLength = -1`). -/
def reqChunked : Request :=
  { method := "POST",
    url := { scheme := "http", host := "example.test", path := "/up", rawQuery := "" },
    host := "example.test", proto := "HTTP/1.1", header := [],
    body := some [104, 105], contentLength := -1,
    remoteAddr := "127.0.0.1:40002", tls := false }

/-- A plain 200 response with no headers and a short body. -/
def okResp : Response := { statusCode := 200, header := [], body := [111, 107] }

/-- Environment whose origin answers `okResp`. -/
def envOK : HTTPEnv :=
  { id := "id-ok", now := 1, duration := 2, newRequestErr := false,
    origin := fun _ => Except.ok okResp }

/-- C9 counterexample: a present two-byte body with `ContentLength = -1`
(chunked) is neither captured nor forwarded — the outbound body and the
stored record body are empty instead of the truncated inbound bytes,
because handler.go reads the body only when `ContentLength > 0`. -/
theorem body_truncation_counterexample :
    (handleHTTP cfg0 reqChunked envOK).outboundBody = some [] ∧
    (([104, 105] : List Nat).take cfg0.maxRequestSize.toNat = [104, 105]) ∧
    (∀ rec ∈ (handleHTTP cfg0 reqChunked envOK).stored, rec.RequestBody = []) ∧
    (handleHTTP cfg0 reqChunked envOK).outboundBody
      ≠ some (([104, 105] : List Nat).take cfg0.maxRequestSize.toNat) := by
  refine ⟨rfl, by decide, ?_, by decide⟩
  intro rec hrec
  have h : (handleHTTP cfg0 reqChunked envOK).stored = [capturedOf cfg0 reqChunked envOK okResp] := rfl
  rw [h] at hrec
  have : rec = capturedOf cfg0 reqChunked envOK okResp := by simpa using hrec
  rw [this]
  rfl

/-- C9 (amended): when the inbound request declares a positive
`ContentLength` and carries a body, the captured record body and the
forwarded outbound body both equal the inbound bytes truncated to
`maxRequestSize`; an absent body yields empty body bytes, not an error;
and likewise every request whose declared `ContentLength` is not positive
(present body or not, e.g. chunked transfer encoding) yields empty body
bytes. -/
theorem body_truncation_amended (cfg : HandlerCfg) (r : Request) (env : HTTPEnv)
    (hreq : env.newRequestErr = false) :
    (∀ bs, r.body = some bs → r.contentLength > 0 →
        (handleHTTP cfg r env).outboundBody = some (bs.take cfg.maxRequestSize.toNat) ∧
        ∀ rec ∈ (handleHTTP cfg r env).stored,
          rec.RequestBody = bs.take cfg.maxRequestSize.toNat) ∧
    (r.body = none →
        (handleHTTP cfg r env).outboundBody = some [] ∧
        ∀ rec ∈ (handleHTTP cfg r env).stored, rec.RequestBody = []) ∧
    (r.contentLength ≤ 0 →
        (handleHTTP cfg r env).outboundBody = some [] ∧
        ∀ rec ∈ (handleHTTP cfg r env).stored, rec.RequestBody = []) := by
  have hbody : ∀ v, truncatedRequestBody cfg r = v →
      (handleHTTP cfg r env).outboundBody = some v ∧
      ∀ rec ∈ (handleHTTP cfg r env).stored, rec.RequestBody = v := by
    intro v hv
    unfold handleHTTP
    rw [hreq]
    simp only [Bool.false_eq_true, if_false]
    cases hdo : clientDo newHandlerRedirectPolicy env.origin with
    | error e =>
      refine ⟨by rw [hv], ?_⟩
      intro rec hrec
      cases hrec
    | ok resp =>
      refine ⟨by rw [hv], ?_⟩
      intro rec hrec
      have : rec = capturedOf cfg r env resp := by simpa using hrec
      rw [this]
      show truncatedRequestBody cfg r = v
      exact hv
  refine ⟨?_, ?_, ?_⟩
  · intro bs hbs hcl
    apply hbody
    unfold truncatedRequestBody
    rw [if_pos ⟨by rw [hbs]; rfl, hcl⟩, hbs]
    rfl
  · intro hbs
    apply hbody
    unfold truncatedRequestBody
    rw [if_neg ?_]
    rintro ⟨hsome, -⟩
    rw [hbs] at hsome
    cases hsome
  · intro hcl
    apply hbody
    unfold truncatedRequestBody
    rw [if_neg ?_]
    rintro ⟨-, hpos⟩
    omega

/-- A request with a declared three-byte body, of which only two fit the
cap used in the witness configuration. -/
def reqBody : Request :=
  { method := "POST",
    url := { scheme := "http", host := "example.test", path := "/up", rawQuery := "" },
    host := "example.test", proto := "HTTP/1.1", header := [],
    body := some [1, 2, 3], contentLength := 3,
    remoteAddr := "127.0.0.1:40003", tls := false }

/-- Witness for `body_truncation_amended`: a three-byte declared body under
a two-byte cap is truncated to its first two bytes; a bodyless request and
a chunked request (present body, `ContentLength = -1`) both yield empty
body bytes. -/
theorem body_truncation_amended_witness :
    (handleHTTP { maxRequestSize := 2 } reqBody envOK).outboundBody
        = some (([1, 2, 3] : List Nat).take ((2 : Int)).toNat) ∧
    (handleHTTP cfg0 req0 envOK).outboundBody = some [] ∧
    (handleHTTP cfg0 reqChunked envOK).outboundBody = some [] := by
  refine ⟨?_, ?_, ?_⟩
  · exact ((body_truncation_amended { maxRequestSize := 2 } reqBody envOK rfl).1
      [1, 2, 3] rfl (by decide)).1
  · exact ((body_truncation_amended cfg0 req0 envOK rfl).2.1 rfl).1
  · exact ((body_truncation_amended cfg0 reqChunked envOK rfl).2.2 (by decide)).1

/-- Port defaulting of `handleConnect`: `net.SplitHostPort` fails for a
bare host, modelled here as the absence of a colon, and then `":443"` is
joined. -/
def connectHostPort (host : String) : String :=
  if host.contains (Char.ofNat 58) then host else host ++ ":443"

/-- Per-request environment of `handleConnect`: generated UUID, capture
time, measured elapsed duration, and the outcomes of the dial, the
hijack capability check, the hijack itself, the acknowledgment write, and
of the two relay directions (whether each `io.Copy` ever returns, by
end-of-stream or error). -/
structure ConnectEnv where
  id : String
  now : Nat
  duration : Nat
  dialOk : Bool
  hijackSupported : Bool
  hijackOk : Bool
  ackWriteOk : Bool
  clientToTargetEnds : Bool
  targetToClientEnds : Bool

/-- Observable outcome of `handleConnect`: the HTTP error status written
via `http.Error` (none once the connection is hijacked), whether the
`200 Connection Established` line was written, whether the byte relay was
started, whether the wait on the `done` channel returned (the tunnel
closed), and the records handed to the Store. -/
structure ConnectResult where
  clientStatus : Option Nat
  ackWritten : Bool
  tunnelEstablished : Bool
  tunnelClosed : Bool
  stored : List CapturedRequest
  deriving Repr, DecidableEq

/-- The capture record `handleConnect` builds: tunnel metadata only, with
the status decided by the path taken. -/
def connectCaptured (env : ConnectEnv) (r : Request) (status : Nat) : CapturedRequest :=
  { ID := env.id, Timestamp := env.now, Method := "CONNECT", Host := r.host,
    URL := "https://" ++ r.host, Path := "", Proto := r.proto,
    RequestHeaders := r.header, RequestBody := [], StatusCode := status,
    ResponseHeaders := [], ResponseBody := [], Duration := env.duration,
    IsHTTPS := true, IsTunnel := true, ClientAddr := r.remoteAddr,
    ProcessName := "", ProcessID := 0 }

/-- Embedding of `Handler.handleConnect` (https.go).  Paths in source
order: dial failure stores a 502 record; a missing hijack capability or a
failed hijack stores a 500 record; a failed acknowledgment write stores a
500 record; otherwise the acknowledgment is written, the record status is
set to 200, and after `<-done` — which returns as soon as either relay
direction finishes — the record is stored with the final duration.  When
neither direction ever finishes, the wait never returns and nothing is
stored. -/
def handleConnect (env : ConnectEnv) (r : Request) : ConnectResult :=
  if env.dialOk = false then
    { clientStatus := some 502, ackWritten := false, tunnelEstablished := false,
      tunnelClosed := false, stored := [connectCaptured env r 502] }
  else if env.hijackSupported = false then
    { clientStatus := some 500, ackWritten := false, tunnelEstablished := false,
      tunnelClosed := false, stored := [connectCaptured env r 500] }
  else if env.hijackOk = false then
    { clientStatus := some 500, ackWritten := false, tunnelEstablished := false,
      tunnelClosed := false, stored := [connectCaptured env r 500] }
  else if env.ackWriteOk = false then
    { clientStatus := none, ackWritten := false, tunnelEstablished := false,
      tunnelClosed := false, stored := [connectCaptured env r 500] }
  else if env.clientToTargetEnds = true ∨ env.targetToClientEnds = true then
    { clientStatus := none, ackWritten := true, tunnelEstablished := true,
      tunnelClosed := true, stored := [connectCaptured env r 200] }
  else
    { clientStatus := none, ackWritten := true, tunnelEstablished := true,
      tunnelClosed := false, stored := [] }

/-- C6: once the acknowledgment handshake completes, the stored record
carries the success status 200 and the finalized duration, it is handed to
the Store exactly once, and this is independent of how the relay ended; and
the tunnel closes exactly when at least one relay direction finishes
(half-close is treated as full closure). -/
theorem tunnel_status_success :
    (∀ (env : ConnectEnv) (r : Request),
        env.dialOk = true → env.hijackSupported = true → env.hijackOk = true →
        env.ackWriteOk = true →
        (env.clientToTargetEnds = true ∨ env.targetToClientEnds = true) →
        (handleConnect env r).ackWritten = true ∧
        (handleConnect env r).stored = [connectCaptured env r 200] ∧
        (connectCaptured env r 200).StatusCode = 200 ∧
        (connectCaptured env r 200).Duration = env.duration) ∧
    (∀ (env : ConnectEnv) (r : Request),
        env.dialOk = true → env.hijackSupported = true → env.hijackOk = true →
        env.ackWriteOk = true →
        ((handleConnect env r).tunnelClosed = true
          ↔ (env.clientToTargetEnds = true ∨ env.targetToClientEnds = true))) := by
  constructor
  · intro env r hdial hsup hhij hack hrelay
    unfold handleConnect
    rw [hdial, hsup, hhij, hack]
    rw [if_neg (by simp), if_neg (by simp), if_neg (by simp), if_neg (by simp),
      if_pos hrelay]
    exact ⟨rfl, rfl, rfl, rfl⟩
  · intro env r hdial hsup hhij hack
    unfold handleConnect
    rw [hdial, hsup, hhij, hack]
    rw [if_neg (by simp), if_neg (by simp), if_neg (by simp), if_neg (by simp)]
    by_cases hrelay : env.clientToTargetEnds = true ∨ env.targetToClientEnds = true
    · rw [if_pos hrelay]
      simpa using hrelay
    · rw [if_neg hrelay]
      simpa using hrelay

/-- Tunnel environment in which the dial succeeds and the target closes
first. -/
def envTunnelOK : ConnectEnv :=
  { id := "id-tunnel", now := 4, duration := 9, dialOk := true,
    hijackSupported := true, hijackOk := true, ackWriteOk := true,
    clientToTargetEnds := false, targetToClientEnds := true }

/-- Witness for `tunnel_status_success` on a tunnel whose target-to-client
direction finishes first. -/
theorem tunnel_status_success_witness :
    (handleConnect envTunnelOK reqRel).stored = [connectCaptured envTunnelOK reqRel 200] ∧
    (handleConnect envTunnelOK reqRel).tunnelClosed = true := by
  constructor
  · exact (tunnel_status_success.1 envTunnelOK reqRel rfl rfl rfl rfl (Or.inr rfl)).2.1
  · exact (tunnel_status_success.2 envTunnelOK reqRel rfl rfl rfl rfl).2 (Or.inr rfl)

/-- C7: a CONNECT whose TCP dial fails stores exactly one record, with the
Bad Gateway status, no acknowledgment written and no tunnel established;
the client is answered 502. -/
theorem connect_dial_failure_record (env : ConnectEnv) (r : Request)
    (hdial : env.dialOk = false) :
    (handleConnect env r).clientStatus = some 502 ∧
    (handleConnect env r).ackWritten = false ∧
    (handleConnect env r).tunnelEstablished = false ∧
    (handleConnect env r).stored = [connectCaptured env r 502] ∧
    ∀ rec ∈ (handleConnect env r).stored,
      rec.StatusCode = 502 ∧ rec.IsTunnel = true ∧ rec.Duration = env.duration := by
  unfold handleConnect
  rw [hdial, if_pos rfl]
  refine ⟨rfl, rfl, rfl, rfl, ?_⟩
  intro rec hrec
  have : rec = connectCaptured env r 502 := by simpa using hrec
  rw [this]
  exact ⟨rfl, rfl, rfl⟩

/-- Tunnel environment in which the dial fails. -/
def envDialFail : ConnectEnv :=
  { id := "id-dialfail", now := 6, duration := 1, dialOk := false,
    hijackSupported := true, hijackOk := true, ackWriteOk := true,
    clientToTargetEnds := false, targetToClientEnds := false }

/-- Witness for `connect_dial_failure_record` on an unreachable target. -/
theorem connect_dial_failure_record_witness :
    (handleConnect envDialFail reqRel).clientStatus = some 502 ∧
    (handleConnect envDialFail reqRel).stored = [connectCaptured envDialFail reqRel 502] := by
  have h := connect_dial_failure_record envDialFail reqRel rfl
  exact ⟨h.1, h.2.2.2.1⟩
